import Mathlib

/-!
Shallow embedding of the MasterPDF client-side application
(src/App.tsx, src/unnamed/part_001 — a second iteration of App.tsx —,
src/unnamed/part_000 — types.ts —, src/services/pdfTools.ts).

Modelling conventions:
* A file's byte payload is abstracted by `FileBytes`: either a parseable PDF
  (carrying its list of pages) or image data (carrying pixel dimensions and
  flags saying whether the bytes form a valid JPEG / a valid PNG).  The
  pdf-lib calls `PDFDocument.load`, `embedJpg`, `embedPng` become the
  `Except`-valued functions `loadPdf`, `embedJpg`, `embedPng`; a thrown
  exception is an `.error`.
* A PDF page is a record of its dimensions plus the list of images drawn on
  it (`drawn`), which is what `addPage([w,h])` / `drawImage` manipulate.
* Canvas rendering (`canvas.toDataURL('image/jpeg', 0.9)`) is a host-browser
  primitive; it enters the model as an explicit `render : Page → String`
  parameter producing the data URL of a page.
* The React state cell (`files`, `status`, `progress`, `error`) together
  with the `downloadBlob` side effects becomes the record `AppState`; each
  orchestrator handler is a function `AppState → AppState × List
  ProcessingStatus`, the second component being the ordered trace of all
  `setStatus` calls the handler performs (so "never transitions to
  processing" is expressible).  `downloads` accumulates the `downloadBlob`
  calls in order.
* `window.atob` is modelled as the identity on the base64 text extracted
  from the data URL: the delivered JPEG payload is represented by that text.
-/

/-- Processing status, from types.ts: 'idle' | 'processing' | 'completed' | 'error'. -/
inductive ProcessingStatus
  | idle
  | processing
  | completed
  | error
deriving DecidableEq, Repr

/-- One `page.drawImage(embeddedImage, {x, y, width, height})` call recorded on a page. -/
structure DrawnImage where
  x : Int
  y : Int
  width : Nat
  height : Nat
deriving DecidableEq, Repr

/-- A PDF page: its media-box dimensions and the images drawn onto it. -/
structure Page where
  pageWidth : Nat
  pageHeight : Nat
  drawn : List DrawnImage
deriving DecidableEq, Repr

/-- Abstract byte payload of a `File`.  `pdfDoc` is a payload that
`PDFDocument.load` parses into the given pages; `imageData` is a payload with
pixel dimensions `width × height` whose bytes are a valid JPEG iff `validJpg`
and a valid PNG iff `validPng`. -/
inductive FileBytes
  | pdfDoc (pages : List Page)
  | imageData (width height : Nat) (validJpg validPng : Bool)
deriving DecidableEq, Repr

/-- A browser `File`: name, declared media type (`file.type`), payload. -/
structure SrcFile where
  name : String
  mime : String
  bytes : FileBytes
deriving DecidableEq, Repr

/-- `ManagedFile` from types.ts.  `mtype` is the `type` field: App.tsx stores
`file.type as FileType`, i.e. at run time the raw declared media-type string. -/
structure ManagedFile where
  id : String
  file : SrcFile
  name : String
  size : Nat
  mtype : String
  previewUrl : String
deriving DecidableEq, Repr

/-- One element of the result of `pdfToImages`: `{ dataUrl, page }`. -/
structure PageResult where
  dataUrl : String
  page : Nat
deriving DecidableEq, Repr

/-- Payload handed to `downloadBlob`: the bytes of a saved PDF, a decoded
JPEG (represented by its base64 text), or a zip archive (path/data entries). -/
inductive Payload
  | pdfBytes (pages : List Page)
  | jpgBytes (data : String)
  | zipBytes (entries : List (String × String))
deriving DecidableEq, Repr

/-- One `downloadBlob(blob, filename)` call: filename, blob media type, payload. -/
structure Download where
  filename : String
  mime : String
  payload : Payload
deriving DecidableEq, Repr

/-- The App component's state plus the accumulated download side effects. -/
structure AppState where
  files : List ManagedFile
  status : ProcessingStatus
  progress : Nat
  error : Option String
  downloads : List Download
deriving DecidableEq, Repr

/-- `PDFDocument.load(bytes)`: parses a PDF payload into its pages, throws on
anything else. -/
def loadPdf : FileBytes → Except String (List Page)
  | .pdfDoc ps => .ok ps
  | _ => .error "Failed to parse PDF document"

/-- `pdfDoc.embedJpg(bytes)`: succeeds exactly on valid JPEG data, returning
the embedded image's dimensions. -/
def embedJpg : FileBytes → Except String (Nat × Nat)
  | .imageData w h true _ => .ok (w, h)
  | _ => .error "Failed to embed JPG"

/-- `pdfDoc.embedPng(bytes)`: succeeds exactly on valid PNG data, returning
the embedded image's dimensions. -/
def embedPng : FileBytes → Except String (Nat × Nat)
  | .imageData w h _ true => .ok (w, h)
  | _ => .error "Failed to embed PNG"

/-- The per-file branch of `imagesToPdf` (pdfTools.ts lines 16–24): JPEG
media types go through `embedJpg`, every other declared type through
`embedPng`. -/
def embedImage (f : SrcFile) : Except String (Nat × Nat) :=
  if f.mime = "image/jpeg" ∨ f.mime = "image/jpg" then embedJpg f.bytes
  else embedPng f.bytes

/-- The page built for one embedded image in `imagesToPdf`:
`addPage([w, h])` then `drawImage` at `(0,0)` with full width and height. -/
def fullBleedPage (wh : Nat × Nat) : Page :=
  { pageWidth := wh.1
    pageHeight := wh.2
    drawn := [{ x := 0, y := 0, width := wh.1, height := wh.2 }] }

/-- `imagesToPdf` (pdfTools.ts): one page per image, in input order; the
first embedding failure aborts the whole conversion. -/
def imagesToPdf : List SrcFile → Except String (List Page)
  | [] => .ok []
  | f :: rest => do
      let wh ← embedImage f
      let tail ← imagesToPdf rest
      .ok (fullBleedPage wh :: tail)

/-- `mergePdfs` (pdfTools.ts): loads each file in order, copies all of its
pages (`copyPages` over `getPageIndices`) and appends them (`addPage`);
the first load failure aborts the whole merge. -/
def mergePdfs : List SrcFile → Except String (List Page)
  | [] => .ok []
  | f :: rest => do
      let ps ← loadPdf f.bytes
      let tail ← mergePdfs rest
      .ok (ps ++ tail)

/-- The partition predicate of both orchestrator handlers:
`f.type === FileType.PDF`, i.e. the declared media type is the PDF one. -/
def isPdfKind (f : ManagedFile) : Bool := f.mtype == "application/pdf"

/-- JavaScript `Math.round((i / n) * 100)` for `1 ≤ i ≤ n`, computed exactly:
`Math.round` rounds half away from zero upward, so the value is
`⌊i·100/n + 1/2⌋ = (200·i + n) / (2·n)` in natural division. -/
def jsRound100 (i n : Nat) : Nat := (200 * i + n) / (2 * n)

/-- The page loop of `pdfToImages` (pdfTools.ts lines 66–88), with the page
counter `i` made explicit.  Returns the accumulated results and the ordered
trace of `onProgress` calls. -/
def pdfToImagesLoop (render : Page → String) (n : Nat) :
    List Page → Nat → List PageResult × List Nat
  | [], _ => ([], [])
  | p :: rest, i =>
      let tail := pdfToImagesLoop render n rest (i + 1)
      ({ dataUrl := render p, page := i } :: tail.1, jsRound100 i n :: tail.2)

/-- `pdfToImages` (pdfTools.ts): renders pages 1 … numPages in order,
invoking the progress callback after each page. -/
def pdfToImages (render : Page → String) (pages : List Page) :
    List PageResult × List Nat :=
  pdfToImagesLoop render pages.length pages 1

/-- Whether `pat` occurs at the head of `cs`. -/
def leadsWith : List Char → List Char → Bool
  | [], _ => true
  | _ :: _, [] => false
  | p :: ps, c :: cs => p == c && leadsWith ps cs

/-- The characters after the first occurrence of `pat`, when it occurs. -/
def afterFirst (pat : List Char) : List Char → Option (List Char)
  | [] => none
  | c :: cs =>
      if leadsWith pat (c :: cs) then some ((c :: cs).drop pat.length)
      else afterFirst pat cs

/-- The characters before the first occurrence of `pat` (all of them when it
does not occur). -/
def upToFirst (pat : List Char) : List Char → List Char
  | [] => []
  | c :: cs =>
      if leadsWith pat (c :: cs) then [] else c :: upToFirst pat cs

/-- The base64 portion of a data URL: `dataUrl.split(';base64,')[1]`, i.e.
the text between the first `;base64,` separator and the next one or the end
(the empty string stands for the out-of-range access on a URL without the
separator). -/
def b64Part (dataUrl : String) : String :=
  match afterFirst ";base64,".data dataUrl.data with
  | none => ""
  | some rest => ⟨upToFirst ";base64,".data rest⟩

/-- `createZipFromImages` (pdfTools.ts lines 96–109): one entry per page
result, in input order, named `page_<N>.jpg` from the result's own page
number, inside a top-level folder named `baseName`.  An archive is modelled
as its ordered list of (path, stored data) entries. -/
def createZipFromImages (images : List PageResult) (baseName : String) :
    List (String × String) :=
  images.map (fun img =>
    (baseName ++ "/page_" ++ toString img.page ++ ".jpg", b64Part img.dataUrl))

/-- Character-level worker for JavaScript `String.replace` with a string
pattern: replace the first occurrence of `pat` by `rep`. -/
def replaceFirstAux (pat rep : List Char) : List Char → List Char
  | [] => []
  | c :: cs =>
      if leadsWith pat (c :: cs) then rep ++ (c :: cs).drop pat.length
      else c :: replaceFirstAux pat rep cs

/-- JavaScript `s.replace(pat, rep)` with a string pattern: replaces the
first occurrence of `pat` only (the string is returned unchanged when `pat`
does not occur). -/
def jsReplaceFirst (s pat rep : String) : String :=
  ⟨replaceFirstAux pat.data rep.data s.data⟩

/-- Modelled from the spec: `<source-name-without-extension>` — the source
file name with its final, dot-separated extension removed (unchanged when
it has no dot); used only to compare the spec's naming rule with the
code's. -/
def stripExtension (name : String) : String :=
  let rev := name.data.reverse
  if rev.any (fun c => c == '.') then
    ⟨((rev.dropWhile (fun c => c != '.')).drop 1).reverse⟩
  else name

/-- The `try` body of `handleMergeToPdf` (both App.tsx variants, identical
there): partition the working set, then merge-only / images-only / two-stage
combine. -/
def mergeCompute (files : List ManagedFile) : Except String (List Page) :=
  let imageFiles := (files.filter (fun f => !(isPdfKind f))).map (fun f => f.file)
  let pdfFiles := (files.filter (fun f => isPdfKind f)).map (fun f => f.file)
  if 0 < pdfFiles.length ∧ imageFiles.length = 0 then
    mergePdfs pdfFiles
  else if 0 < imageFiles.length ∧ pdfFiles.length = 0 then
    imagesToPdf imageFiles
  else do
    let tmp ← imagesToPdf imageFiles
    mergePdfs (pdfFiles ++
      [{ name := "temp.pdf", mime := "application/pdf", bytes := .pdfDoc tmp }])

/-- The generic merge failure message set by the `catch` of `handleMergeToPdf`. -/
def mergeErrMsg : String := "An error occurred during PDF merging. Please try again."

/-- `handleMergeToPdf` from src/App.tsx (the `finally` resets progress only):
returns the settled state and the trace of `setStatus` calls. -/
def handleMergeToPdf (s : AppState) : AppState × List ProcessingStatus :=
  if s.files.length = 0 then (s, [])
  else
    match mergeCompute s.files with
    | .ok pages =>
        ({ s with
            status := .completed
            progress := 0
            error := none
            downloads := s.downloads ++
              [{ filename := "merged_document.pdf", mime := "application/pdf",
                 payload := .pdfBytes pages }] },
         [.processing, .completed])
    | .error _ =>
        ({ s with status := .error, progress := 0, error := some mergeErrMsg },
         [.processing, .error])

/-- `handleMergeToPdf` from src/unnamed/part_001, whose `finally` block also
executes `setStatus('idle')` after the catch handler ran. -/
def handleMergeToPdfV1 (s : AppState) : AppState × List ProcessingStatus :=
  if s.files.length = 0 then (s, [])
  else
    match mergeCompute s.files with
    | .ok pages =>
        ({ s with
            status := .idle
            progress := 0
            error := none
            downloads := s.downloads ++
              [{ filename := "merged_document.pdf", mime := "application/pdf",
                 payload := .pdfBytes pages }] },
         [.processing, .completed, .idle])
    | .error _ =>
        ({ s with status := .idle, progress := 0, error := some mergeErrMsg },
         [.processing, .error, .idle])

/-- Outcome of the `try` body of `handlePdfToJpg`, shared by both App.tsx
variants: validation failure (no PDF in the set), a caught failure with its
message, or a delivered download. -/
inductive JpgOutcome
  | noPdf
  | failure (msg : String)
  | delivered (d : Download)
deriving DecidableEq, Repr

/-- The computation of `handlePdfToJpg` up to status bookkeeping: select the
first PDF-kind entry, rasterize it, then deliver a single JPEG or a zip
bundle named from `pdfFile.name.replace('.pdf', '')`. -/
def pdfToJpgCompute (render : Page → String) (files : List ManagedFile) :
    JpgOutcome :=
  match files.find? (fun f => isPdfKind f) with
  | none => .noPdf
  | some pdfFile =>
    match loadPdf pdfFile.file.bytes with
    | .error msg => .failure msg
    | .ok pages =>
      match (pdfToImages render pages).1 with
      | [] => .failure "No pages found in PDF."
      | [r] =>
          .delivered
            { filename := jsReplaceFirst pdfFile.name ".pdf" "" ++ ".jpg",
              mime := "image/jpeg",
              payload := .jpgBytes (b64Part r.dataUrl) }
      | r :: r' :: rest =>
          let cleanN := jsReplaceFirst pdfFile.name ".pdf" ""
          .delivered
            { filename := cleanN ++ "_images.zip",
              mime := "application/zip",
              payload := .zipBytes (createZipFromImages (r :: r' :: rest) cleanN) }

/-- The validation error message of `handlePdfToJpg`. -/
def noPdfMsg : String := "Please upload at least one PDF file to convert."

/-- `handlePdfToJpg` from src/App.tsx: validation failure returns before any
`setStatus`; caught failures wrap the underlying message; the `finally`
resets progress only. -/
def handlePdfToJpg (render : Page → String) (s : AppState) :
    AppState × List ProcessingStatus :=
  match pdfToJpgCompute render s.files with
  | .noPdf => ({ s with error := some noPdfMsg }, [])
  | .failure msg =>
      ({ s with
          status := .error
          progress := 0
          error := some ("Conversion failed: " ++ msg) },
       [.processing, .error])
  | .delivered d =>
      ({ s with
          status := .completed
          progress := 0
          error := none
          downloads := s.downloads ++ [d] },
       [.processing, .completed])

/-- `handlePdfToJpg` from src/unnamed/part_001, whose `finally` block also
executes `setStatus('idle')`. -/
def handlePdfToJpgV1 (render : Page → String) (s : AppState) :
    AppState × List ProcessingStatus :=
  match pdfToJpgCompute render s.files with
  | .noPdf => ({ s with error := some noPdfMsg }, [])
  | .failure msg =>
      ({ s with
          status := .idle
          progress := 0
          error := some ("Conversion failed: " ++ msg) },
       [.processing, .error, .idle])
  | .delivered d =>
      ({ s with
          status := .idle
          progress := 0
          error := none
          downloads := s.downloads ++ [d] },
       [.processing, .completed, .idle])

/-- `removeFile` from App.tsx: keep every entry whose id differs, revoke the
preview handle of the first entry carrying the id (if any).  Returns the new
list and the ordered list of revoked handles. -/
def removeFile (id : String) (prev : List ManagedFile) :
    List ManagedFile × List String :=
  let filtered := prev.filter (fun f => !(f.id == id))
  match prev.find? (fun f => f.id == id) with
  | some removed => (filtered, [removed.previewUrl])
  | none => (filtered, [])

/-- The Kind values of the part_001 variant's classifier. -/
inductive Kind
  | PDF
  | IMAGE
  | UNKNOWN
deriving DecidableEq, Repr

/-- The Kind Classifier of src/unnamed/part_001 `handleFileChange`: start
from UNKNOWN, PDF on exact media-type match, IMAGE when the type starts
with the `image/` prefix (`leadsWith` is the character-level prefix test,
i.e. `String.startsWith`). -/
def classifyKind (mime : String) : Kind :=
  if mime = "application/pdf" then .PDF
  else if leadsWith "image/".data mime.data then .IMAGE
  else .UNKNOWN

/-! ### Concrete fixtures, used to instantiate the theorems below -/

/-- An application state holding the given working set, otherwise pristine. -/
def mkState (fs : List ManagedFile) : AppState :=
  { files := fs, status := .idle, progress := 0, error := none, downloads := [] }

/-- A sample source page. -/
def pgA : Page := { pageWidth := 10, pageHeight := 20, drawn := [] }

/-- A second sample source page. -/
def pgB : Page := { pageWidth := 7, pageHeight := 9, drawn := [] }

/-- A renderer producing a fixed JPEG data URL for every page. -/
def renderA : Page → String := fun _ => "data:image/jpeg;base64,QUJD"

/-- A well-formed two-page PDF entry named `doc.pdf`. -/
def mfDoc : ManagedFile :=
  { id := "f1"
    file := { name := "doc.pdf", mime := "application/pdf", bytes := .pdfDoc [pgA, pgB] }
    name := "doc.pdf", size := 100, mtype := "application/pdf", previewUrl := "blob:u1" }

/-- A well-formed one-page PDF entry whose name contains `.pdf` twice. -/
def mfOne : ManagedFile :=
  { id := "f2"
    file := { name := "my.pdfs.pdf", mime := "application/pdf", bytes := .pdfDoc [pgA] }
    name := "my.pdfs.pdf", size := 50, mtype := "application/pdf", previewUrl := "blob:u2" }

/-- A valid JPEG entry of pixel size 3 × 4. -/
def mfJpg : ManagedFile :=
  { id := "f3"
    file := { name := "a.jpg", mime := "image/jpeg", bytes := .imageData 3 4 true false }
    name := "a.jpg", size := 10, mtype := "image/jpeg", previewUrl := "blob:u3" }

/-- A valid PNG entry of pixel size 5 × 6. -/
def mfPng : ManagedFile :=
  { id := "f4"
    file := { name := "b.png", mime := "image/png", bytes := .imageData 5 6 false true }
    name := "b.png", size := 10, mtype := "image/png", previewUrl := "blob:u4" }

/-- A PDF-kind entry whose payload is not a parseable PDF: loading it fails. -/
def mfBad : ManagedFile :=
  { id := "f5"
    file := { name := "bad.pdf", mime := "application/pdf", bytes := .imageData 1 1 true true }
    name := "bad.pdf", size := 10, mtype := "application/pdf", previewUrl := "blob:u5" }

/-- A non-PDF, non-JPEG entry whose payload is not valid PNG data. -/
def mfOdd : ManagedFile :=
  { id := "f6"
    file := { name := "x.bin", mime := "application/octet-stream",
              bytes := .imageData 1 1 true false }
    name := "x.bin", size := 10, mtype := "application/octet-stream", previewUrl := "blob:u6" }

/-! ### Helper lemmas about the library-level operations -/

/-- `mergePdfs` concatenates, in input order, the pages of documents that all load. -/
theorem mergePdfs_forall₂ {fs : List SrcFile} {pss : List (List Page)}
    (h : List.Forall₂ (fun f ps => loadPdf f.bytes = Except.ok ps) fs pss) :
    mergePdfs fs = .ok pss.flatten := by
  induction h with
  | nil => rfl
  | cons hfp _ ih =>
      simp only [mergePdfs, List.flatten_cons, hfp, ih, bind, Except.bind]

/-- Appending one loadable document to a merge appends its pages. -/
theorem mergePdfs_snoc {fs : List SrcFile} {ps : List Page} {g : SrcFile}
    {qs : List Page} (hfs : mergePdfs fs = .ok ps)
    (hg : loadPdf g.bytes = .ok qs) :
    mergePdfs (fs ++ [g]) = .ok (ps ++ qs) := by
  induction fs generalizing ps with
  | nil =>
      simp only [mergePdfs] at hfs
      cases hfs
      simp [mergePdfs, hg, bind, Except.bind]
  | cons f rest ih =>
      simp only [List.cons_append, mergePdfs, List.append_eq, bind, Except.bind]
        at hfs ⊢
      cases hl : loadPdf f.bytes with
      | error e => rw [hl] at hfs; cases hfs
      | ok rs =>
          rw [hl] at hfs
          cases hr : mergePdfs rest with
          | error e => rw [hr] at hfs; cases hfs
          | ok ts =>
              rw [hr] at hfs
              cases hfs
              rw [ih hr]
              simp

/-- `imagesToPdf` produces exactly one full-bleed page per embeddable image,
in input order. -/
theorem imagesToPdf_forall₂ {fs : List SrcFile} {whs : List (Nat × Nat)}
    (h : List.Forall₂ (fun f wh => embedImage f = Except.ok wh) fs whs) :
    imagesToPdf fs = .ok (whs.map fullBleedPage) := by
  induction h with
  | nil => rfl
  | cons hfp _ ih =>
      simp only [imagesToPdf, List.map_cons, hfp, ih, bind, Except.bind]

/-- A single non-embeddable input file makes the whole `imagesToPdf` fail. -/
theorem imagesToPdf_mem_error {fs : List SrcFile} {f : SrcFile} {e : String}
    (hmem : f ∈ fs) (hf : embedImage f = .error e) :
    ∃ e', imagesToPdf fs = .error e' := by
  induction fs with
  | nil => cases hmem
  | cons g rest ih =>
      cases hg : embedImage g with
      | error e' => exact ⟨e', by simp [imagesToPdf, hg, bind, Except.bind]⟩
      | ok wh =>
          rcases List.mem_cons.mp hmem with hfg | hfr
          · subst hfg; rw [hg] at hf; cases hf
          · obtain ⟨e', he'⟩ := ih hfr
            exact ⟨e', by simp [imagesToPdf, hg, he', bind, Except.bind]⟩

/-- With only PDF-kind entries, `mergeCompute` takes the merge-only branch
and concatenates all pages in input order. -/
theorem mergeCompute_allPdf {files : List ManagedFile} {pss : List (List Page)}
    (hne : files ≠ [])
    (hall : ∀ f ∈ files, isPdfKind f = true)
    (h : List.Forall₂ (fun mf ps => loadPdf mf.file.bytes = Except.ok ps) files pss) :
    mergeCompute files = .ok pss.flatten := by
  have himg : files.filter (fun f => !(isPdfKind f)) = [] :=
    List.filter_eq_nil_iff.mpr (fun f hf => by simp [hall f hf])
  have hpdf : files.filter (fun f => isPdfKind f) = files :=
    List.filter_eq_self.mpr hall
  have hlen : 0 < (files.map (fun f => f.file)).length := by
    simpa [List.length_pos] using hne
  simp only [mergeCompute, himg, hpdf, List.map_nil, List.length_nil]
  split_ifs with h1 h2
  · exact mergePdfs_forall₂ (List.forall₂_map_left_iff.mpr h)
  · exact absurd ⟨hlen, trivial⟩ h1
  · exact absurd ⟨hlen, trivial⟩ h1

/-- With only non-PDF-kind entries, `mergeCompute` takes the images-only
branch: one full-bleed page per image, in input order. -/
theorem mergeCompute_allImg {files : List ManagedFile} {whs : List (Nat × Nat)}
    (hne : files ≠ [])
    (hall : ∀ f ∈ files, isPdfKind f = false)
    (h : List.Forall₂ (fun mf wh => embedImage mf.file = Except.ok wh) files whs) :
    mergeCompute files = .ok (whs.map fullBleedPage) := by
  have hpdf : files.filter (fun f => isPdfKind f) = [] :=
    List.filter_eq_nil_iff.mpr (fun f hf => by simp [hall f hf])
  have himg : files.filter (fun f => !(isPdfKind f)) = files :=
    List.filter_eq_self.mpr (fun f hf => by simp [hall f hf])
  have hlen : 0 < (files.map (fun f => f.file)).length := by
    simpa [List.length_pos] using hne
  simp only [mergeCompute, himg, hpdf, List.map_nil, List.length_nil]
  split_ifs with h1 h2
  · exact absurd h1.1 (lt_irrefl 0)
  · exact imagesToPdf_forall₂ (List.forall₂_map_left_iff.mpr h)
  · exact absurd ⟨hlen, trivial⟩ h2

/-- With a mixed set, `mergeCompute` converts the image subset to a
temporary document and merges it after the PDF subset: image-derived pages
come last. -/
theorem mergeCompute_mixed {files : List ManagedFile}
    {pss : List (List Page)} {whs : List (Nat × Nat)}
    (hpdfne : files.filter (fun f => isPdfKind f) ≠ [])
    (himgne : files.filter (fun f => !(isPdfKind f)) ≠ [])
    (hp : List.Forall₂ (fun mf ps => loadPdf mf.file.bytes = Except.ok ps)
      (files.filter (fun f => isPdfKind f)) pss)
    (hi : List.Forall₂ (fun mf wh => embedImage mf.file = Except.ok wh)
      (files.filter (fun f => !(isPdfKind f))) whs) :
    mergeCompute files = .ok (pss.flatten ++ whs.map fullBleedPage) := by
  have himglen : ((files.filter (fun f => !(isPdfKind f))).map (fun f => f.file)).length ≠ 0 := by
    simpa using himgne
  have hpdflen : ((files.filter (fun f => isPdfKind f)).map (fun f => f.file)).length ≠ 0 := by
    simpa using hpdfne
  have htmp : imagesToPdf ((files.filter (fun f => !(isPdfKind f))).map (fun f => f.file)) =
      .ok (whs.map fullBleedPage) :=
    imagesToPdf_forall₂ (List.forall₂_map_left_iff.mpr hi)
  have hmerge : mergePdfs ((files.filter (fun f => isPdfKind f)).map (fun f => f.file)) =
      .ok pss.flatten :=
    mergePdfs_forall₂ (List.forall₂_map_left_iff.mpr hp)
  have hsnoc : mergePdfs ((files.filter (fun f => isPdfKind f)).map (fun f => f.file) ++
      [{ name := "temp.pdf", mime := "application/pdf",
         bytes := .pdfDoc (whs.map fullBleedPage) }]) =
      .ok (pss.flatten ++ whs.map fullBleedPage) :=
    mergePdfs_snoc hmerge (by simp [loadPdf])
  simp only [mergeCompute]
  split_ifs with h1 h2
  · exact absurd h1.2 himglen
  · exact absurd h2.2 hpdflen
  · rw [htmp]
    exact hsnoc

/-! ### Claim theorems -/

/-- C1: for every non-empty working set, Merge-to-PDF partitions the set by
PDF kind and follows the stated policy — only PDFs: merge the PDF subset
directly, preserving input order and concatenating each document's pages in
order; mixed: convert the image subset into one temporary PDF and merge the
original PDF subset followed by it, so the image-derived pages appear last.
An empty working set is a no-op. -/
theorem mergeToPdf_partition_policy (s : AppState) :
    (s.files = [] → handleMergeToPdf s = (s, [])) ∧
    (∀ pss : List (List Page), s.files ≠ [] →
      (∀ f ∈ s.files, isPdfKind f = true) →
      List.Forall₂ (fun mf ps => loadPdf mf.file.bytes = Except.ok ps) s.files pss →
      handleMergeToPdf s =
        ({ s with
            status := .completed
            progress := 0
            error := none
            downloads := s.downloads ++
              [{ filename := "merged_document.pdf", mime := "application/pdf",
                 payload := .pdfBytes pss.flatten }] },
         [.processing, .completed])) ∧
    (∀ (pss : List (List Page)) (whs : List (Nat × Nat)),
      s.files.filter (fun f => isPdfKind f) ≠ [] →
      s.files.filter (fun f => !(isPdfKind f)) ≠ [] →
      List.Forall₂ (fun mf ps => loadPdf mf.file.bytes = Except.ok ps)
        (s.files.filter (fun f => isPdfKind f)) pss →
      List.Forall₂ (fun mf wh => embedImage mf.file = Except.ok wh)
        (s.files.filter (fun f => !(isPdfKind f))) whs →
      handleMergeToPdf s =
        ({ s with
            status := .completed
            progress := 0
            error := none
            downloads := s.downloads ++
              [{ filename := "merged_document.pdf", mime := "application/pdf",
                 payload := .pdfBytes (pss.flatten ++ whs.map fullBleedPage) }] },
         [.processing, .completed])) := by
  refine ⟨fun hemp => ?_, fun pss hne hall hld => ?_, fun pss whs hpne hine hp hi => ?_⟩
  · simp [handleMergeToPdf, hemp]
  · have hlen : ¬ s.files.length = 0 := by
      simpa [List.length_eq_zero] using hne
    simp only [handleMergeToPdf, if_neg hlen, mergeCompute_allPdf hne hall hld]
  · have hne : s.files ≠ [] := by
      intro hemp
      exact hpne (by simp [hemp])
    have hlen : ¬ s.files.length = 0 := by
      simpa [List.length_eq_zero] using hne
    simp only [handleMergeToPdf, if_neg hlen, mergeCompute_mixed hpne hine hp hi]

/-- C1 witness: a concrete mixed set — a two-page PDF followed by a PNG —
merges into the PDF's pages followed by the image-derived page. -/
theorem mergeToPdf_partition_policy_witness :
    handleMergeToPdf (mkState [mfDoc, mfPng]) =
      ({ mkState [mfDoc, mfPng] with
          status := .completed
          progress := 0
          error := none
          downloads := [{ filename := "merged_document.pdf", mime := "application/pdf",
                          payload := .pdfBytes [pgA, pgB, fullBleedPage (5, 6)] }] },
       [.processing, .completed]) := by
  have h := (mergeToPdf_partition_policy (mkState [mfDoc, mfPng])).2.2
    [[pgA, pgB]] [(5, 6)] (by decide) (by decide)
    (List.Forall₂.cons rfl List.Forall₂.nil)
    (List.Forall₂.cons rfl List.Forall₂.nil)
  simpa using h

/-- C4: on a non-empty image-only set, Merge-to-PDF produces one output
document with exactly one page per input image in input order, each page's
dimensions equal to that image's pixel dimensions, the image drawn at the
origin at full width and height. -/
theorem mergeToPdf_imageOnly_fullBleed (s : AppState) (whs : List (Nat × Nat))
    (hne : s.files ≠ [])
    (hall : ∀ f ∈ s.files, isPdfKind f = false)
    (hemb : List.Forall₂ (fun mf wh => embedImage mf.file = Except.ok wh) s.files whs) :
    handleMergeToPdf s =
      ({ s with
          status := .completed
          progress := 0
          error := none
          downloads := s.downloads ++
            [{ filename := "merged_document.pdf", mime := "application/pdf",
               payload := .pdfBytes (whs.map fullBleedPage) }] },
       [.processing, .completed]) ∧
    (whs.map fullBleedPage).length = s.files.length ∧
    List.Forall₂ (fun wh pg => pg.pageWidth = wh.1 ∧ pg.pageHeight = wh.2 ∧
        pg.drawn = [{ x := 0, y := 0, width := wh.1, height := wh.2 }])
      whs (whs.map fullBleedPage) := by
  have hlen : ¬ s.files.length = 0 := by
    simpa [List.length_eq_zero] using hne
  refine ⟨?_, ?_, ?_⟩
  · simp only [handleMergeToPdf, if_neg hlen, mergeCompute_allImg hne hall hemb]
  · simp [hemb.length_eq]
  · exact List.forall₂_map_right_iff.mpr
      (List.forall₂_same.mpr (fun wh _ => ⟨rfl, rfl, rfl⟩))

/-- C4 witness: a JPEG of size 3 × 4 followed by a PNG of size 5 × 6 become
a two-page document of exactly those page sizes, images drawn full-bleed. -/
theorem mergeToPdf_imageOnly_fullBleed_witness :
    handleMergeToPdf (mkState [mfJpg, mfPng]) =
      ({ mkState [mfJpg, mfPng] with
          status := .completed
          progress := 0
          error := none
          downloads := [{ filename := "merged_document.pdf", mime := "application/pdf",
                          payload := .pdfBytes [fullBleedPage (3, 4), fullBleedPage (5, 6)] }] },
       [.processing, .completed]) := by
  have h := (mergeToPdf_imageOnly_fullBleed (mkState [mfJpg, mfPng]) [(3, 4), (5, 6)]
    (by decide) (by decide)
    (List.Forall₂.cons rfl (List.Forall₂.cons rfl List.Forall₂.nil))).1
  simpa using h

/-- The rasterizer loop, started at counter `i`, emits result `k` for source
page `k` with page number `i + k` and progress value `jsRound100 (i + k) n`. -/
theorem pdfToImagesLoop_spec (render : Page → String) (n : Nat) :
    ∀ (l : List Page) (i : Nat),
      (pdfToImagesLoop render n l i).1.length = l.length ∧
      (pdfToImagesLoop render n l i).2.length = l.length ∧
      ∀ k p, l[k]? = some p →
        (pdfToImagesLoop render n l i).1[k]? =
          some { dataUrl := render p, page := i + k } ∧
        (pdfToImagesLoop render n l i).2[k]? = some (jsRound100 (i + k) n) := by
  intro l
  induction l with
  | nil =>
      intro i
      refine ⟨rfl, rfl, fun k p hk => ?_⟩
      simp at hk
  | cons q rest ih =>
      intro i
      refine ⟨?_, ?_, fun k p hk => ?_⟩
      · simp [pdfToImagesLoop, (ih (i + 1)).1]
      · simp [pdfToImagesLoop, (ih (i + 1)).2.1]
      · cases k with
        | zero =>
            simp only [List.getElem?_cons_zero, Option.some_inj] at hk
            subst hk
            simp [pdfToImagesLoop]
        | succ k' =>
            simp only [List.getElem?_cons_succ] at hk
            have hrest := (ih (i + 1)).2.2 k' p hk
            have harith : i + 1 + k' = i + (k' + 1) := by omega
            simp only [pdfToImagesLoop, List.getElem?_cons_succ]
            rw [hrest.1, hrest.2, harith]
            exact ⟨rfl, rfl⟩

/-- C3: for every PDF with N ≥ 1 pages, the rasterizer processes pages in
ascending order 1 … N, pairing result k (0-based) with page number k + 1,
and fires the progress callback exactly once per page, after page k + 1,
with `jsRound100 (k + 1) N`; moreover `jsRound100 i N` is exactly
round((i / N)·100) computed over the rationals (`Math.round` and Mathlib's
`round` both round halves up). -/
theorem pdfToImages_order_progress (render : Page → String) (pages : List Page)
    (hN : 1 ≤ pages.length) :
    (pdfToImages render pages).1.length = pages.length ∧
    (pdfToImages render pages).2.length = pages.length ∧
    (∀ k p, pages[k]? = some p →
      (pdfToImages render pages).1[k]? = some { dataUrl := render p, page := k + 1 } ∧
      (pdfToImages render pages).2[k]? = some (jsRound100 (k + 1) pages.length)) ∧
    (∀ i : Nat, (jsRound100 i pages.length : ℤ) =
      round ((i : ℚ) / (pages.length : ℚ) * 100)) := by
  obtain ⟨h1, h2, h3⟩ := pdfToImagesLoop_spec render pages.length pages 1
  refine ⟨h1, h2, fun k p hk => ?_, fun i => ?_⟩
  · have := h3 k p hk
    rwa [Nat.add_comm 1 k] at this
  · have hn0 : pages.length ≠ 0 := by omega
    have hq : ((pages.length : ℚ)) ≠ 0 := Nat.cast_ne_zero.mpr hn0
    rw [round_eq]
    have heq : (i : ℚ) / (pages.length : ℚ) * 100 + 1 / 2
        = ((200 * i + pages.length : ℕ) : ℚ) / ((2 * pages.length : ℕ) : ℚ) := by
      push_cast
      field_simp
      ring
    rw [heq, Rat.floor_natCast_div_natCast]
    simp [jsRound100, Int.natCast_div]

/-- C3 witness: on a concrete two-page document, result 0 carries page
number 1, and the second progress call reports `jsRound100 2 2 = 100`. -/
theorem pdfToImages_order_progress_witness :
    (pdfToImages renderA [pgA, pgB]).1[0]? =
      some { dataUrl := renderA pgA, page := 1 } ∧
    (pdfToImages renderA [pgA, pgB]).2[1]? = some (jsRound100 2 2) ∧
    jsRound100 2 2 = 100 := by
  have h := pdfToImages_order_progress renderA [pgA, pgB] (by decide)
  exact ⟨(h.2.2.1 0 pgA rfl).1, (h.2.2.1 1 pgB rfl).2, by decide⟩

/-- C2 counterexample: `pdfFile.name.replace('.pdf', '')` removes the FIRST
occurrence of ".pdf", not the extension.  The one-page PDF named
"my.pdfs.pdf" is delivered as "mys.pdf.jpg", while the source name with its
extension removed would give "my.pdfs.jpg". -/
theorem pdfToJpg_naming_counterexample :
    (handlePdfToJpg renderA (mkState [mfOne])).1.downloads =
      [{ filename := "mys.pdf.jpg", mime := "image/jpeg",
         payload := .jpgBytes "QUJD" }] ∧
    "mys.pdf.jpg" ≠ stripExtension "my.pdfs.pdf" ++ ".jpg" := by
  exact ⟨rfl, by decide⟩

/-- C2 (amended): the delivered base name is the source name with the first
occurrence of the substring ".pdf" removed (the name unchanged when ".pdf"
does not occur) — which equals the name with its extension removed exactly
when ".pdf" occurs only as the final extension; one rendered page delivers
`<base>.jpg` as a JPEG, two or more deliver `<base>_images.zip`. -/
theorem pdfToJpg_delivery_naming (render : Page → String) (s : AppState)
    (f : ManagedFile) (pages : List Page)
    (hf : s.files.find? (fun g => isPdfKind g) = some f)
    (hl : loadPdf f.file.bytes = Except.ok pages) :
    (pages.length = 1 →
      ∃ b, (handlePdfToJpg render s).1.downloads = s.downloads ++
        [{ filename := jsReplaceFirst f.name ".pdf" "" ++ ".jpg",
           mime := "image/jpeg", payload := .jpgBytes b }]) ∧
    (2 ≤ pages.length →
      ∃ es, (handlePdfToJpg render s).1.downloads = s.downloads ++
        [{ filename := jsReplaceFirst f.name ".pdf" "" ++ "_images.zip",
           mime := "application/zip", payload := .zipBytes es }]) := by
  have hlen : (pdfToImages render pages).1.length = pages.length :=
    (pdfToImagesLoop_spec render pages.length pages 1).1
  constructor
  · intro h1
    obtain ⟨r, hr⟩ := List.length_eq_one.mp (hlen.trans h1)
    refine ⟨b64Part r.dataUrl, ?_⟩
    simp [handlePdfToJpg, pdfToJpgCompute, hf, hl, hr]
  · intro h2
    rcases hres : (pdfToImages render pages).1 with _ | ⟨r, rtail⟩
    · rw [hres] at hlen
      simp at hlen
      omega
    · rcases htail : rtail with _ | ⟨r', rest⟩
      · rw [hres, htail] at hlen
        simp at hlen
        omega
      · refine ⟨createZipFromImages (r :: r' :: rest)
          (jsReplaceFirst f.name ".pdf" ""), ?_⟩
        rw [htail] at hres
        simp [handlePdfToJpg, pdfToJpgCompute, hf, hl, hres]

/-- C2 witness for the amended statement: the one-page "my.pdfs.pdf" is
delivered as `jsReplaceFirst "my.pdfs.pdf" ".pdf" "" ++ ".jpg"`. -/
theorem pdfToJpg_delivery_naming_witness :
    ∃ b, (handlePdfToJpg renderA (mkState [mfOne])).1.downloads =
      [{ filename := jsReplaceFirst mfOne.name ".pdf" "" ++ ".jpg",
         mime := "image/jpeg", payload := .jpgBytes b }] := by
  have h := (pdfToJpg_delivery_naming renderA (mkState [mfOne]) mfOne [pgA]
    rfl rfl).1 rfl
  simpa using h

/-- C5 counterexample: in the part_001 variant a caught merge failure does
not settle with status error — the `finally` block overwrites it with idle.
`mfBad` is PDF-kind with unparseable bytes, so the merge fails and is
caught, yet the settled status is idle. -/
theorem errorPath_settled_counterexample :
    (∃ e, mergeCompute (mkState [mfBad]).files = Except.error e) ∧
    (handleMergeToPdfV1 (mkState [mfBad])).1.status = ProcessingStatus.idle ∧
    ProcessingStatus.idle ≠ ProcessingStatus.error := by
  exact ⟨⟨"Failed to parse PDF document", rfl⟩, rfl, by decide⟩

/-- C5 (amended): for every caught failure in Merge-to-PDF or PDF-to-Image,
progress settles at 0, no download is added, and the file set is left
unchanged (usable for an immediate retry; neither handler retries — each
runs its computation once).  In the src/App.tsx variant the settled status
is error; in the src/unnamed/part_001 variant the status passes through
error but the finally block settles it at idle. -/
theorem errorPath_settled (render : Page → String) (s : AppState) (em ej : String)
    (hne : s.files ≠ [])
    (hm : mergeCompute s.files = .error em)
    (hj : pdfToJpgCompute render s.files = .failure ej) :
    ((handleMergeToPdf s).1.status = .error ∧ (handleMergeToPdf s).1.progress = 0 ∧
      (handleMergeToPdf s).1.files = s.files ∧
      (handleMergeToPdf s).1.downloads = s.downloads) ∧
    ((handlePdfToJpg render s).1.status = .error ∧
      (handlePdfToJpg render s).1.progress = 0 ∧
      (handlePdfToJpg render s).1.files = s.files ∧
      (handlePdfToJpg render s).1.downloads = s.downloads) ∧
    ((handleMergeToPdfV1 s).1.status = .idle ∧
      ProcessingStatus.error ∈ (handleMergeToPdfV1 s).2 ∧
      (handleMergeToPdfV1 s).1.progress = 0 ∧
      (handleMergeToPdfV1 s).1.files = s.files ∧
      (handleMergeToPdfV1 s).1.downloads = s.downloads) ∧
    ((handlePdfToJpgV1 render s).1.status = .idle ∧
      ProcessingStatus.error ∈ (handlePdfToJpgV1 render s).2 ∧
      (handlePdfToJpgV1 render s).1.progress = 0 ∧
      (handlePdfToJpgV1 render s).1.files = s.files ∧
      (handlePdfToJpgV1 render s).1.downloads = s.downloads) := by
  have hlen : ¬ s.files.length = 0 := by
    simpa [List.length_eq_zero] using hne
  refine ⟨?_, ?_, ?_, ?_⟩ <;>
    simp [handleMergeToPdf, handleMergeToPdfV1, handlePdfToJpg, handlePdfToJpgV1,
      if_neg hlen, hne, hm, hj]

/-- C5 witness: the single unparseable PDF-kind entry `mfBad` makes both
operations fail; the main variant settles with status error and progress 0. -/
theorem errorPath_settled_witness :
    (handleMergeToPdf (mkState [mfBad])).1.status = ProcessingStatus.error ∧
    (handleMergeToPdf (mkState [mfBad])).1.progress = 0 ∧
    (handlePdfToJpg renderA (mkState [mfBad])).1.status = ProcessingStatus.error ∧
    (handlePdfToJpgV1 renderA (mkState [mfBad])).1.status = ProcessingStatus.idle := by
  have h := errorPath_settled renderA (mkState [mfBad])
    "Failed to parse PDF document" "Failed to parse PDF document"
    (by decide) rfl rfl
  exact ⟨h.1.1, h.1.2.1, h.2.1.1, h.2.2.2.1⟩

/-- C6: invoking PDF-to-Image on a working set with no PDF-kind entry only
sets the validation message: the status trace is empty (in particular the
status never becomes processing), and status, progress, files and downloads
are unchanged; the part_001 variant behaves identically. -/
theorem pdfToJpg_noPdf_failFast (render : Page → String) (s : AppState)
    (h : ∀ f ∈ s.files, isPdfKind f = false) :
    handlePdfToJpg render s = ({ s with error := some noPdfMsg }, []) ∧
    (handlePdfToJpg render s).1.status = s.status ∧
    (handlePdfToJpg render s).1.progress = s.progress ∧
    (handlePdfToJpg render s).1.downloads = s.downloads ∧
    ProcessingStatus.processing ∉ (handlePdfToJpg render s).2 ∧
    handlePdfToJpgV1 render s = ({ s with error := some noPdfMsg }, []) := by
  have hfind : s.files.find? (fun f => isPdfKind f) = none :=
    List.find?_eq_none.mpr (fun f hf => by simp [h f hf])
  have hc : pdfToJpgCompute render s.files = .noPdf := by
    simp [pdfToJpgCompute, hfind]
  refine ⟨?_, ?_, ?_, ?_, ?_, ?_⟩ <;>
    simp [handlePdfToJpg, handlePdfToJpgV1, hc]

/-- C6 witness: a JPEG-only working set makes PDF-to-Image fail fast with
the validation message and an empty status trace. -/
theorem pdfToJpg_noPdf_failFast_witness :
    handlePdfToJpg renderA (mkState [mfJpg]) =
      ({ mkState [mfJpg] with error := some noPdfMsg }, []) :=
  (pdfToJpg_noPdf_failFast renderA (mkState [mfJpg]) (by decide)).1

/-- C7: the Bundle Packager emits exactly one entry per page result, in
input order, each stored at path `<baseName>/page_<N>.jpg` where N is the
result's own 1-based page number (not re-indexed), inside the top-level
folder named `baseName`; being a pure function of its two arguments it is
deterministic. -/
theorem createZip_entries (images : List PageResult) (baseName : String) :
    (createZipFromImages images baseName).length = images.length ∧
    List.Forall₂ (fun img entry =>
        entry.1 = baseName ++ "/page_" ++ toString img.page ++ ".jpg" ∧
        entry.2 = b64Part img.dataUrl)
      images (createZipFromImages images baseName) := by
  refine ⟨List.length_map _ _, ?_⟩
  exact List.forall₂_map_right_iff.mpr
    (List.forall₂_same.mpr (fun img _ => ⟨rfl, rfl⟩))

/-- C8: removing the single entry carrying a given id revokes exactly that
entry's preview handle, exactly once, leaves every other entry — identity,
metadata, relative order — unchanged, and preserves the distinctness of the
remaining preview handles. -/
theorem removeFile_single (pre post : List ManagedFile) (e : ManagedFile)
    (h1 : ∀ f ∈ pre, f.id ≠ e.id)
    (h2 : ∀ f ∈ post, f.id ≠ e.id)
    (hnd : ((pre ++ e :: post).map (fun f => f.previewUrl)).Nodup) :
    removeFile e.id (pre ++ e :: post) = (pre ++ post, [e.previewUrl]) ∧
    ((pre ++ post).map (fun f => f.previewUrl)).Nodup := by
  have hfpre : pre.filter (fun f => !(f.id == e.id)) = pre :=
    List.filter_eq_self.mpr (fun f hf => by simp [h1 f hf])
  have hfpost : post.filter (fun f => !(f.id == e.id)) = post :=
    List.filter_eq_self.mpr (fun f hf => by simp [h2 f hf])
  have hfilter : (pre ++ e :: post).filter (fun f => !(f.id == e.id)) = pre ++ post := by
    rw [List.filter_append, List.filter_cons]
    simp [hfpre, hfpost]
  have hfindpre : pre.find? (fun f => f.id == e.id) = none :=
    List.find?_eq_none.mpr (fun f hf => by simp [h1 f hf])
  have hfind : (pre ++ e :: post).find? (fun f => f.id == e.id) = some e := by
    rw [List.find?_append, hfindpre, List.find?_cons_of_pos _ (by simp)]
    rfl
  refine ⟨?_, ?_⟩
  · simp [removeFile, hfilter, hfind]
  · exact hnd.sublist
      (((List.sublist_cons_self e post).append_left pre).map (fun f => f.previewUrl))

/-- C8 witness: removing `mfJpg` from a three-entry store revokes exactly
its handle and leaves the other two entries in order. -/
theorem removeFile_single_witness :
    removeFile mfJpg.id [mfDoc, mfJpg, mfPng] = ([mfDoc, mfPng], [mfJpg.previewUrl]) :=
  (removeFile_single [mfDoc] [mfPng] mfJpg (by decide) (by decide) (by decide)).1

/-- C9: the part_001 Kind Classifier is a total pure function of the
declared media-type string: PDF on exact equality with the PDF media type,
IMAGE when the string starts with the `image/` prefix, UNKNOWN otherwise;
every media-type string is mapped to one of the three defined Kind values. -/
theorem classifyKind_total (mime : String) :
    (mime = "application/pdf" → classifyKind mime = .PDF) ∧
    (mime ≠ "application/pdf" → leadsWith "image/".data mime.data = true →
      classifyKind mime = .IMAGE) ∧
    (mime ≠ "application/pdf" → leadsWith "image/".data mime.data = false →
      classifyKind mime = .UNKNOWN) ∧
    (classifyKind mime = .PDF ∨ classifyKind mime = .IMAGE ∨
      classifyKind mime = .UNKNOWN) := by
  refine ⟨fun h => by simp [classifyKind, h],
    fun h hp => by simp [classifyKind, h, hp],
    fun h hp => by simp [classifyKind, h, hp], ?_⟩
  by_cases h : mime = "application/pdf"
  · exact Or.inl (by simp [classifyKind, h])
  · by_cases hp : leadsWith "image/".data mime.data
    · exact Or.inr (Or.inl (by simp [classifyKind, h, hp]))
    · exact Or.inr (Or.inr (by simp [classifyKind, h, hp]))

/-- C9 witness: the classifier on the three representative media types. -/
theorem classifyKind_total_witness :
    classifyKind "application/pdf" = Kind.PDF ∧
    classifyKind "image/png" = Kind.IMAGE ∧
    classifyKind "text/html" = Kind.UNKNOWN :=
  ⟨(classifyKind_total "application/pdf").1 rfl,
   (classifyKind_total "image/png").2.1 (by decide) (by decide),
   (classifyKind_total "text/html").2.2.1 (by decide) (by decide)⟩

/-- C10: a non-PDF-kind entry whose declared media type is neither
image/jpeg nor image/jpg is attempted as a PNG embed by `imagesToPdf`; when
its payload is not valid PNG data, the whole merge fails and the handler
surfaces the generic merge error — the entry is not skipped and nothing is
delivered. -/
theorem merge_nonJpeg_embedded_as_png (s : AppState) (f : ManagedFile) (e : String)
    (hmem : f ∈ s.files)
    (hnp : isPdfKind f = false)
    (hmime : ¬(f.file.mime = "image/jpeg" ∨ f.file.mime = "image/jpg"))
    (hpng : embedPng f.file.bytes = .error e) :
    (∃ em, mergeCompute s.files = Except.error em) ∧
    handleMergeToPdf s =
      ({ s with status := .error, progress := 0, error := some mergeErrMsg },
       [.processing, .error]) := by
  have hemb : embedImage f.file = .error e := by
    simp [embedImage, hmime, hpng]
  have hmemImg : f.file ∈ (s.files.filter (fun g => !(isPdfKind g))).map (fun g => g.file) :=
    List.mem_map_of_mem _ (List.mem_filter.mpr ⟨hmem, by simp [hnp]⟩)
  obtain ⟨e', he'⟩ := imagesToPdf_mem_error hmemImg hemb
  have hmc : ∃ em, mergeCompute s.files = Except.error em := by
    have himgne :
        ((s.files.filter (fun g => !(isPdfKind g))).map (fun g => g.file)).length ≠ 0 := by
      intro h0
      rw [List.length_eq_zero] at h0
      rw [h0] at hmemImg
      cases hmemImg
    simp only [mergeCompute]
    split_ifs with hc1 hc2
    · exact absurd hc1.2 himgne
    · exact ⟨e', he'⟩
    · refine ⟨e', ?_⟩
      rw [he']
      rfl
  obtain ⟨em, hm⟩ := hmc
  have hne : s.files ≠ [] := List.ne_nil_of_mem hmem
  have hlen : ¬ s.files.length = 0 := by
    simpa [List.length_eq_zero] using hne
  exact ⟨⟨em, hm⟩, by simp [handleMergeToPdf, if_neg hlen, hne, hm]⟩

/-- C10 witness: the octet-stream entry `mfOdd` (not valid PNG data) makes
the merge of a mixed set fail with the generic message. -/
theorem merge_nonJpeg_embedded_as_png_witness :
    handleMergeToPdf (mkState [mfDoc, mfOdd]) =
      ({ mkState [mfDoc, mfOdd] with
          status := .error
          progress := 0
          error := some mergeErrMsg },
       [.processing, .error]) :=
  (merge_nonJpeg_embedded_as_png (mkState [mfDoc, mfOdd]) mfOdd "Failed to embed PNG"
    (by decide) (by decide) (by decide) rfl).2
